import Mathlib

/-!
Verification of the branching computer-use agent core
(`src/agent/autonomous_agent.py`, `src/agent/branching_agent.py`).

The Python source is shallowly embedded: pure control flow becomes Lean
functions, in-place mutation becomes explicit state passing, and a raised
exception becomes an `Except`/`Option` error value.  Machine floats used
for delays are modelled over `ℚ` (only ordering and sums of delays are at
stake, never rounding).  External collaborators (the chat provider, the
Morph VM backend, the file system, `json.loads` from the standard
library) are modelled at their interface, as oracles or as a faithful
restriction, and each such modelling choice is recorded in the doc
comment of the definition.
-/

/- ===================================================================
   Retry policy: `retry_with_exponential_backoff`
   (src/agent/autonomous_agent.py, lines 25-63)
   =================================================================== -/

/-- Outcome of one run of `retry_with_exponential_backoff`:
either the wrapped function returned a value, or the final error was
re-raised (`raise e` at line 49), or the fall-through
`raise Exception("Max retries exceeded")` at line 63 fired. -/
inductive RetryOutcome (E A : Type) where
  | ok (a : A)
  | raised (e : E)
  | genericError (msg : String)
deriving DecidableEq, Repr

/-- Observable trace of one run of `retry_with_exponential_backoff`:
its outcome, how many times the wrapped function was invoked, and the
sequence of sleep durations (in seconds, modelled over `ℚ`). -/
structure RetryRun (E A : Type) where
  outcome : RetryOutcome E A
  calls : Nat
  sleeps : List ℚ
deriving DecidableEq, Repr

/-- The `while retries < max_retries` loop of
`retry_with_exponential_backoff` (lines 43-60).  `f i` is the result of
the `(i+1)`-st invocation of `func` (an `Except` models a Python
exception); `jitter i` models the draw of `random.uniform(0, 0.1*delay)`
made after the `(i+1)`-st failure.  `max_retries` is an integer as in
Python, so that non-positive values are representable. -/
def retryGo (f : Nat → Except E A) (jitter : Nat → ℚ) (max_retries : Int) :
    Nat → ℚ → RetryRun E A
  | retries, delay =>
    if _h : (retries : Int) < max_retries then
      match f retries with
      | .ok a => { outcome := .ok a, calls := 1, sleeps := [] }
      | .error e =>
        if max_retries ≤ (retries : Int) + 1 then
          { outcome := .raised e, calls := 1, sleeps := [] }
        else
          let rest := retryGo f jitter max_retries (retries + 1) (delay * 2)
          { outcome := rest.outcome, calls := rest.calls + 1,
            sleeps := (delay + jitter retries) :: rest.sleeps }
    else
      { outcome := .genericError "Max retries exceeded", calls := 0, sleeps := [] }
termination_by retries _ => (max_retries - retries).toNat
decreasing_by omega

/-- `retry_with_exponential_backoff(func, max_retries, initial_delay)`
(lines 25-63): starts with `retries = 0` and `delay = initial_delay`. -/
def retry_with_exponential_backoff (f : Nat → Except E A) (jitter : Nat → ℚ)
    (max_retries : Int) (initial_delay : ℚ) : RetryRun E A :=
  retryGo f jitter max_retries 0 initial_delay

/- ===================================================================
   A model of `json.loads` restricted to flat string-valued objects
   =================================================================== -/

/-- Whitespace characters accepted between JSON tokens. -/
def isJsonWs (c : Char) : Bool :=
  c = (' ') ∨ c = ('\t') ∨ c = ('\n') ∨ c = ('\r')

/-- Drop leading JSON whitespace. -/
def skipWs : List Char → List Char
  | [] => []
  | c :: cs => if isJsonWs c then skipWs cs else c :: cs

/-- Read the body of a JSON string up to the closing quote (the opening
quote has already been consumed); escape sequences are not modelled. -/
def parseJsonString : List Char → Option (String × List Char)
  | [] => none
  | c :: cs =>
    if c = ('"') then some ("", cs)
    else
      match parseJsonString cs with
      | some (s, rest) => some (String.mk (c :: s.data), rest)
      | none => none

/-- Parse one or more `"key": "value"` members followed by the closing
brace; `fuel` bounds the recursion (any value above the input length is
enough). -/
def parseMembers (fuel : Nat) (cs : List Char) :
    Option (List (String × String) × List Char) :=
  match fuel with
  | 0 => none
  | fuel + 1 =>
    match skipWs cs with
    | [] => none
    | c :: rest =>
      if c = ('"') then
        match parseJsonString rest with
        | none => none
        | some (key, rest) =>
          match skipWs rest with
          | [] => none
          | c2 :: rest2 =>
            if c2 = (':') then
              match skipWs rest2 with
              | [] => none
              | c3 :: rest3 =>
                if c3 = ('"') then
                  match parseJsonString rest3 with
                  | none => none
                  | some (val, rest4) =>
                    match skipWs rest4 with
                    | [] => none
                    | c5 :: rest5 =>
                      if c5 = (',') then
                        match parseMembers fuel rest5 with
                        | some (pairs, rest6) => some ((key, val) :: pairs, rest6)
                        | none => none
                      else if c5 = (Char.ofNat 125) then
                        some ([(key, val)], rest5)
                      else none
                else none
            else none
      else none

/-- Modelled from the behaviour of the external standard-library call
`json.loads` (used at src/agent/autonomous_agent.py lines 497 and 628),
restricted to the shapes the engine exchanges: a flat JSON object whose
values are strings, without escape sequences.  `some pairs` models a
successful parse to a dict (`lookup` takes the first binding; the
arguments produced in this development never repeat a key), and `none`
models `json.loads` raising (`json.JSONDecodeError`), which also stands
in for any shape on which the subsequent `args.get` would fail. -/
def json_loads_obj (s : String) : Option (List (String × String)) :=
  match skipWs s.data with
  | [] => none
  | c :: rest =>
    if c = (Char.ofNat 123) then
      match skipWs rest with
      | [] => none
      | c2 :: rest2 =>
        if c2 = (Char.ofNat 125) then
          if (skipWs rest2).isEmpty then some [] else none
        else
          match parseMembers (rest.length + 1) rest with
          | some (pairs, trailing) =>
            if (skipWs trailing).isEmpty then some pairs else none
          | none => none
    else none

/- ===================================================================
   Conversation items and the item handler
   =================================================================== -/

/-- A conversation item, the tagged rendering of the untyped dicts the
engine passes around: user/assistant messages, a tool call
(`"function_call"`, with `arguments` optional as in
`item.get("arguments", ...)`), a tool result (`"function_call_output"`),
and environment actions (`"computer_call"` and its output). -/
inductive Item where
  | userMessage (content : String)
  | assistantMessage (content : String)
  | functionCall (call_id : String) (name : String) (arguments : Option String)
  | functionCallOutput (call_id : String) (output : String)
  | computerCall (action : String)
  | computerCallOutput (output : String)
deriving DecidableEq, Repr

/-- Modelled from the spec: the base `Agent.handle_item` (module
`agent.agent`, imported at src/agent/autonomous_agent.py line 18) is not
under src/.  Per spec section 4.2 step f ("append any items it produces
(e.g., tool outputs for non-done tool calls)") and section 4.2.1, the
handler produces the single tool output for a tool call that is not
named "done" (whose acknowledgment the run loop synthesizes itself),
executes an environment action and returns its post-action screenshot
output, and produces nothing for other item kinds.  Output payloads are
opaque here and fixed to placeholder strings. -/
def handle_item : Item → List Item
  | .functionCall call_id name _ =>
    if name = "done" then [] else [.functionCallOutput call_id "success"]
  | .computerCall _ => [.computerCallOutput "screenshot"]
  | _ => []

/-- Is this item a `"function_call"` named `"done"` (the check at
src/agent/autonomous_agent.py lines 495 and 626)? -/
def is_done_call : Item → Bool
  | .functionCall _ name _ => name = "done"
  | _ => false

/-- Does `json.loads(item.get("arguments", "\x7b\x7d"))` succeed on this
item, if it is a done call?  (Vacuously true for every other item.) -/
def done_args_parse : Item → Bool
  | .functionCall _ name arguments =>
    if name = "done" then (json_loads_obj (arguments.getD "\x7b\x7d")).isSome else true
  | _ => true

/- ===================================================================
   The autonomous run loop (`AutonomousAgent._run_loop`,
   src/agent/autonomous_agent.py lines 418-696)
   =================================================================== -/

/-- The per-output-item processing loop of `_run_loop` (lines 493-512 for
the initial turn, lines 624-643 for continuations, which are verbatim
copies of each other).  `items` is the conversation list being mutated
in place (already extended with the raw output, line 490/621), `running`
is `self.running`.  Returns the items list, the running flag, and
`some e` when an iteration raised (the only raising operation in the
loop body is `json.loads` on the arguments of a `"done"` call); on a
raise, the items appended by earlier iterations remain, as with the
in-place Python mutation. -/
def process_output_items : List Item → List Item → Bool → List Item × Bool × Option String
  | [], items, running => (items, running, none)
  | item :: rest, items, running =>
    match item with
    | .functionCall call_id name arguments =>
      if name = "done" then
        match json_loads_obj (arguments.getD "\x7b\x7d") with
        | none => (items, running, some "json.decoder.JSONDecodeError")
        | some args =>
          let done_reason := (args.lookup "reason").getD "Task completed"
          let items :=
            items ++ [.functionCallOutput call_id ("Task marked as complete: " ++ done_reason)]
          process_output_items rest (items ++ handle_item item) false
      else
        process_output_items rest (items ++ handle_item item) running
    | _ => process_output_items rest (items ++ handle_item item) running

/-- The items that processing one output item appends to the
conversation, assuming its arguments parse (used to state the closed
form of `process_output_items`). -/
def item_appends (item : Item) : List Item :=
  match item with
  | .functionCall call_id name arguments =>
    if name = "done" then
      .functionCallOutput call_id ("Task marked as complete: " ++
          ((((json_loads_obj (arguments.getD "\x7b\x7d")).getD []).lookup "reason").getD
            "Task completed"))
        :: handle_item item
    else handle_item item
  | _ => handle_item item

/-- The observable final state of one `_run_loop` execution: the local
conversation `items` list (including, on an abnormal exit, the items
already appended before the exception), `self.steps_taken`,
`self.running`, whether the "No output from model" branch was taken,
the error reported through the `action="error"` callback (if any), and
whether the "Reached maximum ... steps" completion message was
printed. -/
structure RunResult where
  items : List Item
  steps_taken : Nat
  running : Bool
  no_output : Bool
  error : Option String
  max_steps_msg : Bool
deriving DecidableEq, Repr

/-- The continuation prompt appended before every follow-up request
(lines 566-571; apostrophes written as \x27). -/
def continuation_prompt : String :=
  "Continue with the task. Based on what you\x27ve done so far, decide what to do next and take action. Exercise your best judgment. If you believe you have completed the task, call the \x27done\x27 tool to indicate completion."

/-- The `while self.running and self.steps_taken < self.max_steps` loop
(lines 557-689) followed by the terminal bookkeeping (lines 691-696).
`provider k` is the outcome of the retry-wrapped `create_response` call
for request number `k` (`.error e` models the last error propagating
after retries exhaust, `.ok none` a response without an `"output"`
field, `.ok (some out)` a normal response); sleeps, trajectory writes
and callbacks other than the error report do not affect this state.
Exceptions inside a turn are caught at line 672 and break the loop;
afterwards the max-steps check at line 692 runs and line 696 clears
`running`. -/
def run_loop_from (provider : Nat → Except String (Option (List Item))) (max_steps : Nat) :
    Nat → List Item → Nat → Bool → RunResult
  | k, items, steps, running =>
    if _h : running = true ∧ steps < max_steps then
      let items' := items ++ [.userMessage continuation_prompt]
      match provider k with
      | .error e =>
        { items := items', steps_taken := steps, running := false, no_output := false,
          error := some e, max_steps_msg := decide (max_steps ≤ steps) }
      | .ok none =>
        { items := items', steps_taken := steps, running := false, no_output := true,
          error := none, max_steps_msg := decide (max_steps ≤ steps) }
      | .ok (some output) =>
        match process_output_items output (items' ++ output) running with
        | (items'', running', none) =>
          run_loop_from provider max_steps (k + 1) items'' (steps + 1) running'
        | (items'', _, some e) =>
          { items := items'', steps_taken := steps, running := false, no_output := false,
            error := some e, max_steps_msg := decide (max_steps ≤ steps) }
    else
      { items := items, steps_taken := steps, running := false, no_output := false,
        error := none, max_steps_msg := decide (max_steps ≤ steps) }
termination_by _k _items steps _running => max_steps - steps
decreasing_by omega

/-- `AutonomousAgent._run_loop` (lines 418-696): the initial turn (lines
420-551, which on an exception or a missing output field reports and
returns early, skipping the max-steps message) followed by the follow-up
loop.  `self.running` is `true` on entry (set by `start`, line 241) and
`self.steps_taken` is 0 (line 242). -/
def run_loop (provider : Nat → Except String (Option (List Item))) (max_steps : Nat)
    (initial_task : String) : RunResult :=
  let items : List Item := [.userMessage initial_task]
  match provider 0 with
  | .error e =>
    { items := items, steps_taken := 0, running := false, no_output := false,
      error := some e, max_steps_msg := false }
  | .ok none =>
    { items := items, steps_taken := 0, running := false, no_output := true,
      error := none, max_steps_msg := false }
  | .ok (some output) =>
    match process_output_items output (items ++ output) true with
    | (items', running', none) => run_loop_from provider max_steps 1 items' 1 running'
    | (items', _, some e) =>
      { items := items', steps_taken := 0, running := false, no_output := false,
        error := some e, max_steps_msg := false }

/-- The number of `"function_call_output"` items in `l` whose call id is
`call_id`. -/
def count_results (call_id : String) (l : List Item) : Nat :=
  (l.filter fun item =>
    match item with
    | .functionCallOutput c _ => c = call_id
    | _ => false).length

/-- The call ids of the `"function_call"` items of `l`, in order. -/
def tool_call_ids (l : List Item) : List String :=
  l.filterMap fun item =>
    match item with
    | .functionCall c _ _ => some c
    | _ => none

/- ===================================================================
   Trajectory recorder (src/agent/autonomous_agent.py lines 352-416 and
   the direct recording path in `autonomous_handle_item`, lines 738-756)
   =================================================================== -/

/-- The in-memory trajectory record together with the number of times it
has been flushed to its file.  Action and interaction payloads are
opaque strings here (the sanitizer is not at stake); `flushes` counts
the `json.dump` write attempts (`_save_trajectory_file` and the direct
`open`/`json.dump` at lines 752-753). -/
structure Trajectory where
  actions : List String
  interactions : List (String × String)
  flushes : Nat
deriving DecidableEq, Repr

/-- `_save_trajectory_file` (lines 352-362): one write of the record to
`trajectory.json`. -/
def save_trajectory_file (t : Trajectory) : Trajectory :=
  { t with flushes := t.flushes + 1 }

/-- `_record_in_trajectory` (lines 364-391): append the action, then
save to file when the action count is a multiple of 5. -/
def record_in_trajectory (t : Trajectory) (a : String) : Trajectory :=
  let t := { t with actions := t.actions ++ [a] }
  if t.actions.length % 5 = 0 then save_trajectory_file t else t

/-- `_record_interaction` (lines 393-416): append the interaction, then
save to file when its type is `"response"` or the interaction count is a
multiple of 2. -/
def record_interaction (t : Trajectory) (interaction_type : String) (d : String) : Trajectory :=
  let t := { t with interactions := t.interactions ++ [(interaction_type, d)] }
  if interaction_type = "response" ∨ t.interactions.length % 2 = 0 then
    save_trajectory_file t
  else t

/-- The `"computer_call"` recording path of `autonomous_handle_item`
(lines 738-756): append the action directly to
`self.trajectory["actions"]` and write the file unconditionally. -/
def record_computer_call_action (t : Trajectory) (a : String) : Trajectory :=
  save_trajectory_file { t with actions := t.actions ++ [a] }

/-- The trajectory as initialized in `__init__` (lines 141-147), with
the metadata fields omitted. -/
def initial_trajectory : Trajectory :=
  { actions := [], interactions := [], flushes := 0 }

/- ===================================================================
   Tool catalog (`AutonomousAgent.__init__`, lines 165-184)
   =================================================================== -/

/-- A JSON-schema property of a tool parameter object. -/
structure ToolProperty where
  type : String
  description : String
deriving DecidableEq, Repr

/-- The JSON-schema `parameters` object of a tool. -/
structure ToolParameters where
  type : String
  properties : List (String × ToolProperty)
  additionalProperties : Bool
  required : List String
deriving DecidableEq, Repr

/-- A tool definition dict; every field is optional because callers pass
plain dicts (`tool.get("name")` is `None` on, e.g., the
`computer-preview` tool built in `create_agents`). -/
structure Tool where
  type : Option String
  name : Option String
  description : Option String
  parameters : Option ToolParameters
deriving DecidableEq, Repr

/-- The synthetic `done` tool (lines 168-183). -/
def done_tool : Tool :=
  { type := some "function",
    name := some "done",
    description := some "Call this function when you have completed your task and want to stop.",
    parameters := some
      { type := "object",
        properties := [("reason",
          { type := "string", description := "Reason for completing the task." })],
        additionalProperties := false,
        required := ["reason"] } }

/-- Lines 165-184 of `__init__`: append the synthetic `done` tool unless
some tool of the caller-supplied list is already named `"done"`. -/
def ensure_done_tool (tools : List Tool) : List Tool :=
  if tools.any (fun tool => tool.name = some "done") then tools
  else tools ++ [done_tool]

/- ===================================================================
   Branch coordinator (`BranchingAgent`, src/agent/branching_agent.py)
   =================================================================== -/

/-- An opaque point-in-time capture of an environment, identified by an
id (the Morph snapshot object is external; only identity matters
here). -/
structure Snapshot where
  id : String
deriving DecidableEq, Repr

/-- A handle to a (possibly forked) Morph VM environment.  The remote
provisioning in src/computers/morph.py is an external collaborator; the
model keeps only the snapshot the handle was forked from. -/
structure MorphComputer where
  snapshot_id : Option String
deriving DecidableEq, Repr

/-- `MorphComputer.from_snapshot(snapshot, ...)` followed by
`__enter__()` (src/agent/branching_agent.py lines 146-151): provisioning
is external, so the fork is modelled as the handle remembering its
snapshot; the `auto_open_browser`/`skip_verification` flags only
parameterize the external backend and are dropped. -/
def MorphComputer.from_snapshot (snap : Snapshot) : MorphComputer :=
  { snapshot_id := some snap.id }

/-- Decimal rendering of a digit sequence, most significant first, with
`fuel` bounding the recursion (any value at least the number of digits
is enough). -/
def toDecimalAux : Nat → Nat → List Char
  | 0, _ => []
  | fuel + 1, n =>
    if n = 0 then []
    else toDecimalAux fuel (n / 10) ++ [Nat.digitChar (n % 10)]

/-- Modelled from the behaviour of the Python builtin `str` on a
non-negative `int` (used in the f-string `f"branch-{i}"` at
src/agent/branching_agent.py line 137): standard decimal rendering. -/
def pyStr (n : Nat) : String :=
  if n = 0 then "0" else String.mk (toDecimalAux (n + 1) n)

/-- The key-overwriting insertion of a Python `dict` assignment
`d[k] = v` (insertion order preserved, as in CPython). -/
def dict_insert (d : List (String × A)) (k : String) (v : A) : List (String × A) :=
  if d.any (fun p => p.1 = k) then d.map (fun p => if p.1 = k then (k, v) else p)
  else d ++ [(k, v)]

/-- The mutable attributes of a `BranchingAgent` (constructor lines
27-58).  `agent_callback` and `agent_kwargs` are opaque (their contents
are only forwarded); `agents` keeps the branch ids of the created
engines, whose runtime state lives on their own threads. -/
structure BranchingAgentState where
  main_computer : Option MorphComputer
  skip_verification : Bool
  agent_callback : Bool
  agent_kwargs : List (String × String)
  completion_mode : String
  shared_context : Option String
  branch_instructions : List String
  branches : List (String × MorphComputer)
  agents : List String
  base_snapshot : Option Snapshot
deriving DecidableEq, Repr

/-- `BranchingAgent.create_branches` (lines 105-157): resolve the
snapshot (falling back to `self.base_snapshot`, raising a `ValueError`
when neither is available), store the instructions, synthesize
`"branch-i"` names when none are given, and fork one environment per
`zip(branch_names, instructions)` pair into the `branches` dict.  The
`context`/`auto_open_browser`/`skip_verification` parameters only feed
the external backend (the resolved `context` is in fact unused by the
source) and are dropped here. -/
def create_branches (st : BranchingAgentState) (instructions : List String)
    (snapshot : Option Snapshot) (branch_names : Option (List String)) :
    Except String (BranchingAgentState × List (String × MorphComputer)) :=
  let snapshot := match snapshot with | none => st.base_snapshot | some s => some s
  match snapshot with
  | none => .error "No snapshot provided and no base_snapshot available"
  | some snap =>
    let st := { st with branch_instructions := instructions }
    let branch_names := match branch_names with
      | none => (List.range instructions.length).map (fun i => "branch-" ++ pyStr i)
      | some names => names
    let branches := (branch_names.zip instructions).foldl
      (fun d p => dict_insert d p.1 (MorphComputer.from_snapshot snap)) []
    .ok ({ st with branches := branches }, branches)

/-- Lines 307-311 of `run_branches`: store the provided context and
fall back to the fixed default when the stored context is falsy (Python:
`None` or the empty string). -/
def set_shared_context (st : BranchingAgentState) (context : Option String) :
    BranchingAgentState :=
  match context with
  | some c =>
    if c = "" then
      { st with shared_context := some "Execute the branch-specific instruction." }
    else { st with shared_context := some c }
  | none =>
    if st.shared_context = none ∨ st.shared_context = some "" then
      { st with shared_context := some "Execute the branch-specific instruction." }
    else st

/-- Lines 313-354 of `run_branches`: create the branches, then run the
external agent phase (create/start/wait/collect, lines 324-352, modelled
by the `agent_phase` oracle since it runs worker threads and only reads
the coordinator configuration).  The agent-count check is the one
`create_agents` performs at lines 175-182 before storing
`self.agents`. -/
def run_branches_agents_phase (st : BranchingAgentState) (instructions : List String)
    (branch_names : Option (List String)) (snap : Snapshot)
    (agent_phase : Except String Unit) :
    BranchingAgentState × Except String (List String) :=
  match create_branches st instructions (some snap) branch_names with
  | .error e => (st, .error e)
  | .ok (st2, branches) =>
    if branches = [] then (st2, .error "No branches provided and no branches available")
    else if instructions.length ≠ branches.length then
      (st2, .error "Number of instructions does not match number of branches")
    else
      match agent_phase with
      | .error e => ({ st2 with agents := branches.map Prod.fst }, .error e)
      | .ok _ =>
        ({ st2 with agents := branches.map Prod.fst }, .ok (branches.map Prod.fst))

/-- The body of the `try` block of `BranchingAgent.run_branches` (lines
286-354), threading the coordinator state.  `snapshot_result` is the
outcome of the external `create_snapshot` API call (line 298; its own
missing-computer check cannot fire because line 294 already checked),
whose success also stores `self.base_snapshot` (line 101); a `.error`
anywhere models an exception raised inside the `try`. -/
def run_branches_body (st : BranchingAgentState) (instructions : List String)
    (context : Option String) (branch_names : Option (List String))
    (snapshot_result : Except String Snapshot) (agent_phase : Except String Unit) :
    BranchingAgentState × Except String (List String) :=
  if st.main_computer = none then
    (st, .error "No computer provided. Initialize BranchingAgent with a computer.")
  else
    match snapshot_result with
    | .error e => (st, .error e)
    | .ok snap =>
      if instructions = [] then
        ({ st with base_snapshot := some snap }, .error "No branch instructions provided")
      else
        run_branches_agents_phase
          (set_shared_context
            { st with base_snapshot := some snap, branch_instructions := instructions }
            context)
          instructions branch_names snap agent_phase

/-- `BranchingAgent.run_branches` (lines 261-358): optionally override
`self.completion_mode` with `wait_mode` (validated against
`["all", "first"]`; as in Python, an empty `wait_mode` string is falsy
and skips both the validation and the override), run the body, and in
the `finally` block restore the original completion mode whether the
body returned or raised. -/
def run_branches (st : BranchingAgentState) (instructions : List String)
    (context : Option String) (branch_names : Option (List String))
    (wait_mode : Option String) (snapshot_result : Except String Snapshot)
    (agent_phase : Except String Unit) :
    BranchingAgentState × Except String (List String) :=
  let original_mode := st.completion_mode
  let inner :=
    match wait_mode with
    | some w =>
      if w = "" then
        run_branches_body st instructions context branch_names snapshot_result agent_phase
      else if w = "all" ∨ w = "first" then
        run_branches_body { st with completion_mode := w } instructions context branch_names
          snapshot_result agent_phase
      else (st, .error ("Invalid wait_mode: " ++ w))
    | none => run_branches_body st instructions context branch_names snapshot_result agent_phase
  ({ inner.1 with completion_mode := original_mode }, inner.2)

/-- A concrete coordinator state used to instantiate theorems. -/
def sample_state : BranchingAgentState :=
  { main_computer := some { snapshot_id := none }, skip_verification := false,
    agent_callback := false, agent_kwargs := [], completion_mode := "all",
    shared_context := none, branch_instructions := [], branches := [], agents := [],
    base_snapshot := none }

/- ===================================================================
   Helper lemmas
   =================================================================== -/

/-- C4 helper: the closed form of `retryGo` on an always-failing function. -/
theorem retryGo_always_fails (E : Type) (errs : Nat → E) (jitter : Nat → ℚ) :
    ∀ (n r : Nat) (d : ℚ),
      retryGo (fun i => (Except.error (errs i) : Except E Unit)) jitter
          ((r : Int) + (n : Int) + 1) r d =
        { outcome := .raised (errs (r + n)), calls := n + 1,
          sleeps := (List.range n).map (fun k => d * 2 ^ k + jitter (r + k)) } := by
  intro n
  induction n with
  | zero =>
    intro r d
    rw [retryGo]
    simp
  | succ n ih =>
    intro r d
    have harg : ((r : Int) + ((n + 1 : Nat) : Int) + 1) = (((r + 1 : Nat) : Int) + (n : Int) + 1) := by
      push_cast; omega
    have hpos : (r : Int) < ((r + 1 : Nat) : Int) + (n : Int) + 1 := by push_cast; omega
    have hneg : ¬ (((r + 1 : Nat) : Int) + (n : Int) + 1 ≤ (r : Int) + 1) := by push_cast; omega
    have hr : r + 1 + n = r + (n + 1) := by omega
    have hsleeps :
        ((d + jitter r) :: (List.range n).map (fun k => d * 2 * 2 ^ k + jitter (r + 1 + k)))
          = (List.range (n + 1)).map (fun k => d * 2 ^ k + jitter (r + k)) := by
      rw [List.range_succ_eq_map, List.map_cons, List.map_map]
      refine congrArg₂ _ (by simp) (List.map_congr_left ?_)
      intro k _
      have hk : r + 1 + k = r + (k + 1) := by omega
      simp only [Function.comp, Nat.succ_eq_add_one, hk]
      ring
    rw [retryGo, harg, ih (r + 1) (d * 2), dif_pos hpos]
    simp only [if_neg hneg]
    rw [hr, hsleeps]


/-- C10 helper: once the loop has been entered, every exit is a `return`
or a `raise e`; the fall-through `raise Exception("Max retries
exceeded")` is unreachable. -/
theorem retryGo_no_fallthrough (f : Nat → Except E A) (jitter : Nat → ℚ) (M : Int)
    (r : Nat) (d : ℚ) (hr : (r : Int) < M) (msg : String) :
    (retryGo f jitter M r d).outcome ≠ .genericError msg := by
  rw [retryGo, dif_pos hr]
  cases hf : f r with
  | ok a => simp
  | error e =>
    by_cases hle : M ≤ (r : Int) + 1
    · simp [hle]
    · simp only [if_neg hle]
      exact retryGo_no_fallthrough f jitter M (r + 1) (d * 2) (by omega) msg
termination_by (M - r).toNat
decreasing_by omega

/- ===================================================================
   Claims C4 and C10: retry policy
   =================================================================== -/

/-- C4: for an operation that raises on every invocation and any
`max_retries = M ≥ 1`, `retry_with_exponential_backoff` invokes the
operation exactly `M` times and re-raises the last error; between
consecutive attempts it sleeps `delay + jitter` (with
`jitter = uniform(0, 0.1*delay)`) and then doubles `delay`, so the total
sleep is at least the sum of `initial_delay * 2^k` for
`k ∈ [0, M-2]`. -/
theorem retry_always_failing_bound (E : Type) (errs : Nat → E) (jitter : Nat → ℚ)
    (M : Nat) (initial_delay : ℚ) (hM : 1 ≤ M)
    (hjitter : ∀ k, 0 ≤ jitter k ∧ jitter k ≤ 1 / 10 * (initial_delay * 2 ^ k)) :
    (retry_with_exponential_backoff (fun i => (Except.error (errs i) : Except E Unit)) jitter
        (M : Int) initial_delay).calls = M ∧
    (retry_with_exponential_backoff (fun i => (Except.error (errs i) : Except E Unit)) jitter
        (M : Int) initial_delay).outcome = .raised (errs (M - 1)) ∧
    (retry_with_exponential_backoff (fun i => (Except.error (errs i) : Except E Unit)) jitter
        (M : Int) initial_delay).sleeps =
      (List.range (M - 1)).map (fun k => initial_delay * 2 ^ k + jitter k) ∧
    ((List.range (M - 1)).map (fun k => initial_delay * 2 ^ k)).sum ≤
      (retry_with_exponential_backoff (fun i => (Except.error (errs i) : Except E Unit)) jitter
        (M : Int) initial_delay).sleeps.sum := by
  obtain ⟨n, rfl⟩ : ∃ n, M = n + 1 := ⟨M - 1, by omega⟩
  have hM' : ((n + 1 : Nat) : Int) = ((0 : Nat) : Int) + (n : Int) + 1 := by push_cast; omega
  have h := retryGo_always_fails E errs jitter n 0 initial_delay
  rw [retry_with_exponential_backoff, hM', h]
  refine ⟨rfl, by simp, by simp, ?_⟩
  simp only [Nat.add_sub_cancel]
  refine List.sum_le_sum ?_
  intro k _
  have := (hjitter k).1
  simp only [zero_add]
  linarith

/-- C4 witness: three attempts with `initial_delay = 1` and zero
jitter. -/
theorem retry_always_failing_bound_witness :
    (retry_with_exponential_backoff (fun i => (Except.error i : Except Nat Unit))
        (fun _ => 0) (3 : Int) 1).calls = 3 ∧
    (retry_with_exponential_backoff (fun i => (Except.error i : Except Nat Unit))
        (fun _ => 0) (3 : Int) 1).outcome = .raised 2 ∧
    ((List.range 2).map (fun k => (1 : ℚ) * 2 ^ k)).sum ≤
      (retry_with_exponential_backoff (fun i => (Except.error i : Except Nat Unit))
        (fun _ => 0) (3 : Int) 1).sleeps.sum := by
  have h := retry_always_failing_bound Nat (fun i => i) (fun _ => 0) 3 1 (by norm_num)
    (fun k => ⟨le_refl 0, by positivity⟩)
  exact ⟨h.1, h.2.1, h.2.2.2⟩

/-- C10: for `max_retries ≤ 0` the loop body never runs, the operation
is never invoked, and the generic `Exception("Max retries exceeded")`
from the fall-through branch is raised; that branch is indeed
unreachable whenever `max_retries ≥ 1`. -/
theorem retry_nonpositive_max_retries (E A : Type) (f : Nat → Except E A)
    (jitter : Nat → ℚ) (M : Int) (initial_delay : ℚ) :
    (M ≤ 0 →
      retry_with_exponential_backoff f jitter M initial_delay =
        { outcome := .genericError "Max retries exceeded", calls := 0, sleeps := [] }) ∧
    (1 ≤ M →
      ∀ msg, (retry_with_exponential_backoff f jitter M initial_delay).outcome ≠
        .genericError msg) := by
  constructor
  · intro hM
    rw [retry_with_exponential_backoff, retryGo, dif_neg (by push_cast; omega)]
  · intro hM msg
    exact retryGo_no_fallthrough f jitter M 0 initial_delay (by push_cast; omega) msg

/-- C10 witness: with `max_retries = 0` the operation is never called
and the generic error fires; with `max_retries = 1` it never does. -/
theorem retry_nonpositive_max_retries_witness :
    retry_with_exponential_backoff (fun _ => (Except.error 0 : Except Nat Nat)) (fun _ => 0)
        (0 : Int) 1 =
      { outcome := .genericError "Max retries exceeded", calls := 0, sleeps := [] } ∧
    (retry_with_exponential_backoff (fun _ => (Except.error 0 : Except Nat Nat)) (fun _ => 0)
        (1 : Int) 1).outcome ≠ .genericError "Max retries exceeded" :=
  ⟨(retry_nonpositive_max_retries Nat Nat _ _ 0 1).1 (by norm_num),
   (retry_nonpositive_max_retries Nat Nat _ _ 1 1).2 (by norm_num) _⟩

/-- Helper: an item that is not a done call trivially satisfies
`done_args_parse`. -/
theorem done_args_parse_of_not_done (item : Item) (h : is_done_call item = false) :
    done_args_parse item = true := by
  cases item <;> simp_all [is_done_call, done_args_parse]

/-- Helper: the closed form of the per-item processing loop when the
arguments of every done call parse: no exception, every item appends
`item_appends`, and the running flag is cleared exactly when some done
call occurs. -/
theorem process_output_items_parse_ok :
    ∀ (output items : List Item) (running : Bool),
      (∀ item ∈ output, done_args_parse item = true) →
      process_output_items output items running =
        (items ++ (output.map item_appends).flatten,
         running && !(output.any is_done_call), none) := by
  intro output
  induction output with
  | nil => intro items r _; simp [process_output_items]
  | cons item rest ih =>
    intro items r hparse
    have hitem := hparse item (List.mem_cons_self _ _)
    have hrest := fun i hi => hparse i (List.mem_cons_of_mem _ hi)
    cases item with
    | functionCall c name args =>
      by_cases hname : name = "done"
      · subst hname
        rw [done_args_parse] at hitem
        simp only [if_pos rfl] at hitem
        obtain ⟨obj, hobj⟩ := Option.isSome_iff_exists.mp hitem
        rw [process_output_items]
        simp only [if_pos rfl, hobj]
        rw [ih _ _ hrest]
        simp [item_appends, is_done_call, hobj, List.append_assoc]
      · rw [process_output_items]
        simp only [if_neg hname]
        rw [ih _ _ hrest]
        simp [item_appends, is_done_call, hname, List.append_assoc]
    | userMessage content =>
      simp only [process_output_items]
      rw [ih _ _ hrest]
      simp [item_appends, is_done_call, List.append_assoc]
    | assistantMessage content =>
      simp only [process_output_items]
      rw [ih _ _ hrest]
      simp [item_appends, is_done_call, List.append_assoc]
    | functionCallOutput c out =>
      simp only [process_output_items]
      rw [ih _ _ hrest]
      simp [item_appends, is_done_call, List.append_assoc]
    | computerCall action =>
      simp only [process_output_items]
      rw [ih _ _ hrest]
      simp [item_appends, is_done_call, List.append_assoc]
    | computerCallOutput out =>
      simp only [process_output_items]
      rw [ih _ _ hrest]
      simp [item_appends, is_done_call, List.append_assoc]

/-- Helper: when the provider always returns an output containing no
done call, the follow-up loop runs to `max_steps` and ends in the
max-steps-reached report with no error. -/
theorem run_loop_from_no_done
    (provider : Nat → Except String (Option (List Item))) (N : Nat)
    (hp : ∀ k, ∃ out, provider k = .ok (some out) ∧ ∀ i ∈ out, is_done_call i = false)
    (k : Nat) (items : List Item) (steps : Nat) (hsteps : steps ≤ N) :
    (run_loop_from provider N k items steps true).steps_taken = N ∧
    (run_loop_from provider N k items steps true).running = false ∧
    (run_loop_from provider N k items steps true).max_steps_msg = true ∧
    (run_loop_from provider N k items steps true).error = none ∧
    (run_loop_from provider N k items steps true).no_output = false := by
  by_cases hlt : steps < N
  · obtain ⟨out, hout, hnodone⟩ := hp k
    have hparse : ∀ i ∈ out, done_args_parse i = true :=
      fun i hi => done_args_parse_of_not_done i (hnodone i hi)
    have hany : out.any is_done_call = false := by
      rw [List.any_eq_false]
      intro i hi
      simp [hnodone i hi]
    rw [run_loop_from, dif_pos ⟨rfl, hlt⟩, hout]
    simp only []
    rw [process_output_items_parse_ok out _ true hparse, hany]
    simp only [Bool.not_false, Bool.and_true]
    exact run_loop_from_no_done provider N hp (k + 1) _ (steps + 1) (by omega)
  · have hEq : steps = N := by omega
    rw [run_loop_from, dif_neg (by omega)]
    subst hEq
    simp
termination_by N - steps
decreasing_by omega

/- ===================================================================
   Claims C2 and C3: run-loop termination
   =================================================================== -/

/-- C2: with `max_steps = N ≥ 1` and a provider that on every turn
returns a response with an output containing no done call (and no turn
raising), the run loop terminates with `steps_taken` exactly `N`,
prints the maximum-steps report rather than an error, and leaves
`running = false`. -/
theorem run_loop_max_steps_exact (provider : Nat → Except String (Option (List Item)))
    (N : Nat) (task : String) (hN : 1 ≤ N)
    (hp : ∀ k, ∃ out, provider k = .ok (some out) ∧ ∀ i ∈ out, is_done_call i = false) :
    (run_loop provider N task).steps_taken = N ∧
    (run_loop provider N task).running = false ∧
    (run_loop provider N task).max_steps_msg = true ∧
    (run_loop provider N task).error = none ∧
    (run_loop provider N task).no_output = false := by
  obtain ⟨out, hout, hnodone⟩ := hp 0
  have hparse : ∀ i ∈ out, done_args_parse i = true :=
    fun i hi => done_args_parse_of_not_done i (hnodone i hi)
  have hany : out.any is_done_call = false := by
    rw [List.any_eq_false]
    intro i hi
    simp [hnodone i hi]
  rw [run_loop, hout]
  simp only []
  rw [process_output_items_parse_ok out _ true hparse, hany]
  simp only [Bool.not_false, Bool.and_true]
  exact run_loop_from_no_done provider N hp 1 _ 1 hN

/-- C2 witness: a provider that always answers with an empty output
list, `max_steps = 3`. -/
theorem run_loop_max_steps_exact_witness :
    (run_loop (fun _ => .ok (some [])) 3 "task").steps_taken = 3 ∧
    (run_loop (fun _ => .ok (some [])) 3 "task").running = false ∧
    (run_loop (fun _ => .ok (some [])) 3 "task").max_steps_msg = true ∧
    (run_loop (fun _ => .ok (some [])) 3 "task").error = none := by
  have h := run_loop_max_steps_exact (fun _ => .ok (some [])) 3 "task" (by norm_num)
    (fun k => ⟨[], rfl, by intro i hi; cases hi⟩)
  exact ⟨h.1, h.2.1, h.2.2.1, h.2.2.2.1⟩

/-- C3 counterexample: the first response contains a tool call named
"done" whose arguments are malformed; `json.loads` raises, the turn is
caught by the error handler before `steps_taken` is incremented, and the
run ends with `steps_taken = 0`, not 1. -/
theorem run_loop_done_malformed_steps_zero :
    (run_loop (fun _ => .ok (some [.functionCall "call_1" "done" (some "not json")])) 5
        "task").steps_taken = 0 ∧
    ¬ (run_loop (fun _ => .ok (some [.functionCall "call_1" "done" (some "not json")])) 5
        "task").steps_taken = 1 := by
  constructor
  · rfl
  · decide

/-- C3 (amended): if the very first response contains a tool call named
"done" and the arguments of every done call in it parse, the run ends
with `steps_taken = 1` and `running = false`, for every
`max_steps ≥ 1`. -/
theorem run_loop_done_first_response (provider : Nat → Except String (Option (List Item)))
    (N : Nat) (task : String) (out : List Item)
    (hN : 1 ≤ N) (h0 : provider 0 = .ok (some out))
    (hdone : out.any is_done_call = true)
    (hparse : ∀ i ∈ out, done_args_parse i = true) :
    (run_loop provider N task).steps_taken = 1 ∧
    (run_loop provider N task).running = false := by
  rw [run_loop, h0]
  simp only []
  rw [process_output_items_parse_ok out _ true hparse, hdone]
  simp only [Bool.not_true, Bool.and_false]
  rw [run_loop_from, dif_neg (by simp)]
  exact ⟨rfl, rfl⟩

/-- C3 witness: a well-formed done call on the first turn with
`max_steps = 5`. -/
theorem run_loop_done_first_response_witness :
    (run_loop (fun _ => .ok (some
        [.functionCall "c1" "done" (some "\x7b\"reason\": \"ok\"\x7d")])) 5
        "task").steps_taken = 1 ∧
    (run_loop (fun _ => .ok (some
        [.functionCall "c1" "done" (some "\x7b\"reason\": \"ok\"\x7d")])) 5
        "task").running = false :=
  run_loop_done_first_response _ 5 "task"
    [.functionCall "c1" "done" (some "\x7b\"reason\": \"ok\"\x7d")]
    (by norm_num) rfl (by decide) (by decide)

/-- Helper: `count_results` distributes over append. -/
theorem count_results_append (c : String) (l1 l2 : List Item) :
    count_results c (l1 ++ l2) = count_results c l1 + count_results c l2 := by
  simp [count_results, List.filter_append]

/-- Helper: processing one item appends exactly one matching tool result
for the tool call it is (if it is one), and none otherwise. -/
theorem count_results_item_appends (c : String) (item : Item) :
    count_results c (item_appends item) = (tool_call_ids [item]).count c := by
  cases item with
  | functionCall c' name args =>
    by_cases hname : name = "done" <;> by_cases hc : c' = c <;>
      simp [item_appends, handle_item, tool_call_ids, count_results, hname, hc,
        List.count_cons]
  | userMessage content => simp [item_appends, handle_item, tool_call_ids, count_results]
  | assistantMessage content => simp [item_appends, handle_item, tool_call_ids, count_results]
  | functionCallOutput c' out =>
    by_cases hc : c' = c <;>
      simp [item_appends, handle_item, tool_call_ids, count_results, hc]
  | computerCall action => simp [item_appends, handle_item, tool_call_ids, count_results]
  | computerCallOutput out => simp [item_appends, handle_item, tool_call_ids, count_results]

/-- Helper: over a whole output list, the appended items contain one
matching tool result per occurrence of each call id. -/
theorem count_results_flatten (output : List Item) (c : String) :
    count_results c ((output.map item_appends).flatten) = (tool_call_ids output).count c := by
  induction output with
  | nil => simp [count_results, tool_call_ids]
  | cons item rest ih =>
    rw [List.map_cons, List.flatten_cons, count_results_append,
      count_results_item_appends c item, ih]
    cases item with
    | functionCall c' name args =>
      simp [tool_call_ids, List.count_cons]
      omega
    | userMessage content => simp [tool_call_ids]
    | assistantMessage content => simp [tool_call_ids]
    | functionCallOutput c' out => simp [tool_call_ids]
    | computerCall action => simp [tool_call_ids]
    | computerCallOutput out => simp [tool_call_ids]

/- ===================================================================
   Claim C1: tool-call / tool-result pairing
   =================================================================== -/

/-- C1 counterexample: an output whose only item is a done tool call
with malformed arguments.  Processing raises before the synthetic
acknowledgment is appended, the turn-level handler ends the run, and the
tool call is in the conversation with zero matching tool results (and
no further model request would have been issued with it unpaired only
because the run died). -/
theorem run_loop_malformed_done_never_paired :
    ((Item.functionCall "call_1" "done" (some "not json")) ∈
      (run_loop (fun _ => .ok (some [.functionCall "call_1" "done" (some "not json")])) 3
        "task").items) ∧
    count_results "call_1"
      (run_loop (fun _ => .ok (some [.functionCall "call_1" "done" (some "not json")])) 3
        "task").items = 0 := by
  constructor
  · decide
  · rfl

/-- C1 (amended): within one processing pass whose output has pairwise
distinct tool-call ids and whose done calls all have parseable
arguments, the pass completes without raising and appends, after the
output, exactly one matching tool result for every tool call of the
output (the synthesized acknowledgment covering the done call). -/
theorem process_pass_pairs_each_tool_call (output items0 : List Item) (running : Bool)
    (hnodup : (tool_call_ids output).Nodup)
    (hparse : ∀ i ∈ output, done_args_parse i = true) :
    ∃ appended,
      process_output_items output (items0 ++ output) running =
        (items0 ++ output ++ appended, running && !(output.any is_done_call), none) ∧
      ∀ c ∈ tool_call_ids output, count_results c appended = 1 := by
  refine ⟨(output.map item_appends).flatten, ?_, ?_⟩
  · rw [process_output_items_parse_ok output _ running hparse, List.append_assoc]
  · intro c hc
    rw [count_results_flatten output c]
    exact List.count_eq_one_of_mem hnodup hc

/-- C1 witness: a pass with one ordinary tool call and one well-formed
done call. -/
theorem process_pass_pairs_each_tool_call_witness :
    ∃ appended,
      process_output_items
          [Item.functionCall "a" "tool_x" none,
           Item.functionCall "b" "done" (some "\x7b\x7d")]
          ([Item.userMessage "task"] ++
            [Item.functionCall "a" "tool_x" none,
             Item.functionCall "b" "done" (some "\x7b\x7d")])
          true =
        ([Item.userMessage "task"] ++
          [Item.functionCall "a" "tool_x" none,
           Item.functionCall "b" "done" (some "\x7b\x7d")] ++ appended,
         true && !([Item.functionCall "a" "tool_x" none,
           Item.functionCall "b" "done" (some "\x7b\x7d")].any is_done_call),
         none) ∧
      ∀ c ∈ tool_call_ids
          [Item.functionCall "a" "tool_x" none,
           Item.functionCall "b" "done" (some "\x7b\x7d")],
        count_results c appended = 1 :=
  process_pass_pairs_each_tool_call
    [Item.functionCall "a" "tool_x" none, Item.functionCall "b" "done" (some "\x7b\x7d")]
    [Item.userMessage "task"] true (by decide) (by decide)

/- ===================================================================
   Claim C5: done-reason parsing
   =================================================================== -/

/-- C5 counterexample: a done call with malformed arguments.  The parse
error is not recovered with the default reason: it propagates to the
turn-level handler and the run terminates with an error report. -/
theorem run_loop_malformed_done_errors :
    (run_loop (fun _ => .ok (some [.functionCall "c9" "done" (some "oops")])) 4
        "task").error = some "json.decoder.JSONDecodeError" ∧
    (run_loop (fun _ => .ok (some [.functionCall "c9" "done" (some "oops")])) 4
        "task").steps_taken = 0 := by
  exact ⟨rfl, rfl⟩

/-- C5 (amended): the default reason "Task completed" is used exactly
when the `arguments` field is absent or parses to an object without a
`"reason"` key; when the arguments string fails to parse, `json.loads`
raises, the exception escapes the item loop, and (in a run) terminates
the run as an error. -/
theorem done_reason_parse_behavior (c : String) (args : Option String)
    (l : List Item) (running : Bool) (N : Nat) (task : String) :
    (json_loads_obj (args.getD "\x7b\x7d") = none →
      process_output_items [.functionCall c "done" args] l running =
        (l, running, some "json.decoder.JSONDecodeError") ∧
      (run_loop (fun _ => .ok (some [.functionCall c "done" args])) N task).error =
        some "json.decoder.JSONDecodeError") ∧
    (∀ obj, json_loads_obj (args.getD "\x7b\x7d") = some obj →
      process_output_items [.functionCall c "done" args] l running =
        (l ++ [.functionCallOutput c ("Task marked as complete: " ++
            ((obj.lookup "reason").getD "Task completed"))], false, none)) := by
  constructor
  · intro hnone
    constructor
    · rw [process_output_items]
      simp [hnone]
    · rw [run_loop]
      simp only []
      rw [process_output_items]
      simp [hnone]
  · intro obj hobj
    rw [process_output_items]
    simp [hobj, process_output_items, handle_item]

/-- C5 witness: malformed arguments terminate the run as an error;
`"\x7b\x7d"` arguments acknowledge with the default reason. -/
theorem done_reason_parse_behavior_witness :
    (run_loop (fun _ => .ok (some [.functionCall "c" "done" (some "x")])) 2 "task").error =
      some "json.decoder.JSONDecodeError" ∧
    process_output_items [.functionCall "c" "done" (some "\x7b\x7d")] [] true =
      ([.functionCallOutput "c" "Task marked as complete: Task completed"], false, none) := by
  constructor
  · exact ((done_reason_parse_behavior "c" (some "x") [] true 2 "task").1 (by rfl)).2
  · have h := (done_reason_parse_behavior "c" (some "\x7b\x7d") [] true 2 "task").2 [] (by rfl)
    simpa using h

/- ===================================================================
   Claim C6: trajectory flush cadence
   =================================================================== -/

/-- C6 counterexample: actions recorded through the `"computer_call"`
path of `autonomous_handle_item` (the only path by which the engine
records actions) are flushed unconditionally: 11 recorded actions
produce 11 flushes, not 2. -/
theorem computer_call_actions_flush_every_time :
    ((List.replicate 11 "click").foldl record_computer_call_action initial_trajectory).flushes
      = 11 ∧
    ¬ ((List.replicate 11 "click").foldl record_computer_call_action initial_trajectory).flushes
      = 2 := by
  constructor
  · rfl
  · decide

/-- C6 (amended): `_record_in_trajectory` flushes exactly on every 5th
recorded action (11 actions from a fresh record produce exactly 2
flushes), `_record_interaction` flushes exactly on every 2nd recorded
interaction and unconditionally on a `"response"` interaction, but the
`"computer_call"` handler path appends the action directly and flushes
on every single action. -/
theorem trajectory_flush_cadence (t : Trajectory) (a d interaction_type : String) :
    ((List.replicate 11 a).foldl record_in_trajectory initial_trajectory).flushes = 2 ∧
    (record_in_trajectory t a).flushes =
      (if (t.actions.length + 1) % 5 = 0 then t.flushes + 1 else t.flushes) ∧
    (record_interaction t interaction_type d).flushes =
      (if interaction_type = "response" ∨ (t.interactions.length + 1) % 2 = 0 then
        t.flushes + 1 else t.flushes) ∧
    (record_computer_call_action t a).flushes = t.flushes + 1 := by
  refine ⟨?_, ?_, ?_, rfl⟩
  · simp [List.replicate, record_in_trajectory, save_trajectory_file, initial_trajectory]
  · by_cases h : (t.actions.length + 1) % 5 = 0 <;>
      simp [record_in_trajectory, save_trajectory_file, h]
  · by_cases h : interaction_type = "response" ∨ (t.interactions.length + 1) % 2 = 0 <;>
      simp_all [record_interaction, save_trajectory_file]

/- ===================================================================
   Claim C9: the synthetic done tool
   =================================================================== -/

/-- C9: engine construction ensures the final tool list contains a tool
named "done": when no caller tool is named "done", exactly one synthetic
done tool (whose JSON-schema parameters require the string field
"reason") is appended; when one is already present, the list is left
unchanged. -/
theorem ensure_done_tool_spec (tools : List Tool) :
    ((∀ tool ∈ tools, ¬ tool.name = some "done") →
      ensure_done_tool tools = tools ++ [done_tool] ∧
      ((ensure_done_tool tools).filter (fun tool => tool.name = some "done")).length = 1) ∧
    ((∃ tool ∈ tools, tool.name = some "done") → ensure_done_tool tools = tools) ∧
    (ensure_done_tool tools).any (fun tool => tool.name = some "done") = true ∧
    done_tool.name = some "done" ∧
    (∃ p, done_tool.parameters = some p ∧ "reason" ∈ p.required ∧
      ∃ pr, p.properties.lookup "reason" = some pr ∧ pr.type = "string") := by
  by_cases hany : tools.any (fun tool => tool.name = some "done") = true
  · obtain ⟨tool, htool, hname⟩ := List.any_eq_true.mp hany
    refine ⟨?_, ?_, ?_, rfl, ?_⟩
    · intro hnone
      exact absurd (of_decide_eq_true hname) (hnone tool htool)
    · intro _
      simp [ensure_done_tool, hany]
    · simp [ensure_done_tool, hany]
    · exact ⟨_, rfl, by simp, _, rfl, rfl⟩
  · have hens : ensure_done_tool tools = tools ++ [done_tool] := by
      simp [ensure_done_tool] at hany ⊢
      intro tool htool hname
      exact absurd hname (hany tool htool)
    refine ⟨?_, ?_, ?_, rfl, ?_⟩
    · intro hnone
      refine ⟨hens, ?_⟩
      rw [hens, List.filter_append]
      have hnil : tools.filter (fun tool => tool.name = some "done") = [] := by
        rw [List.filter_eq_nil_iff]
        intro tool htool
        simp only [decide_eq_true_eq]
        exact hnone tool htool
      rw [hnil]
      rfl
    · intro ⟨tool, htool, hname⟩
      exact absurd (List.any_eq_true.mpr ⟨tool, htool, by simpa using hname⟩) hany
    · rw [hens, List.any_append]
      simp [done_tool]
    · exact ⟨_, rfl, by simp, _, rfl, rfl⟩

/-- C9 witness: starting from an empty tool list and from a list already
containing a done tool. -/
theorem ensure_done_tool_spec_witness :
    ensure_done_tool [] = [done_tool] ∧
    ensure_done_tool [done_tool] = [done_tool] := by
  constructor
  · have h := ((ensure_done_tool_spec []).1 (by intro tool htool; cases htool)).1
    simpa using h
  · exact (ensure_done_tool_spec [done_tool]).2.1 ⟨done_tool, by simp, rfl⟩

/-- Helper: the decimal rendering agrees with `Nat.digits`. -/
theorem toDecimalAux_eq (fuel : Nat) : ∀ n, n ≤ fuel →
    toDecimalAux fuel n = ((Nat.digits 10 n).map Nat.digitChar).reverse := by
  induction fuel with
  | zero =>
    intro n hn
    have h0 : n = 0 := by omega
    subst h0
    simp [toDecimalAux]
  | succ fuel ih =>
    intro n hn
    by_cases h0 : n = 0
    · subst h0
      simp [toDecimalAux]
    · have hdiv : n / 10 ≤ fuel := by
        have := Nat.div_lt_self (Nat.pos_of_ne_zero h0) (by norm_num : 1 < 10)
        omega
      rw [toDecimalAux, if_neg h0, ih (n / 10) hdiv,
        Nat.digits_def' (by norm_num : (1 : ℕ) < 10) (Nat.pos_of_ne_zero h0)]
      simp

/-- Helper: `Nat.digitChar` is injective below 10. -/
theorem digitChar_inj_lt_ten :
    ∀ a, a < 10 → ∀ b, b < 10 → Nat.digitChar a = Nat.digitChar b → a = b := by decide

/-- Helper: mapping `Nat.digitChar` over digit lists is injective. -/
theorem map_digitChar_inj :
    ∀ (l1 l2 : List Nat), (∀ x ∈ l1, x < 10) → (∀ x ∈ l2, x < 10) →
      l1.map Nat.digitChar = l2.map Nat.digitChar → l1 = l2 := by
  intro l1
  induction l1 with
  | nil =>
    intro l2 _ _ h
    cases l2 with
    | nil => rfl
    | cons b l2' => simp at h
  | cons a l ih =>
    intro l2 h1 h2 h
    cases l2 with
    | nil => simp at h
    | cons b l2' =>
      simp only [List.map_cons, List.cons.injEq] at h
      have hab : a = b :=
        digitChar_inj_lt_ten a (h1 a (by simp)) b (h2 b (by simp)) h.1
      subst hab
      rw [ih l2' (fun x hx => h1 x (by simp [hx])) (fun x hx => h2 x (by simp [hx])) h.2]

/-- Helper: the model of Python `str` on naturals is injective. -/
theorem pyStr_injective : Function.Injective pyStr := by
  have key : ∀ m, m ≠ 0 → ∀ n, n ≠ 0 →
      toDecimalAux (m + 1) m = toDecimalAux (n + 1) n → m = n := by
    intro m hm n hn h
    rw [toDecimalAux_eq (m + 1) m (by omega), toDecimalAux_eq (n + 1) n (by omega)] at h
    have hmaps := List.reverse_injective h
    have hdigits := map_digitChar_inj _ _
      (fun x hx => Nat.digits_lt_base (by norm_num) hx)
      (fun x hx => Nat.digits_lt_base (by norm_num) hx) hmaps
    rw [← Nat.ofDigits_digits 10 m, ← Nat.ofDigits_digits 10 n, hdigits]
  have zero_case : ∀ n, n ≠ 0 → ¬ ("0" = String.mk (toDecimalAux (n + 1) n)) := by
    intro n hn h
    have hdata : ['0'] = toDecimalAux (n + 1) n := congrArg String.data h
    rw [toDecimalAux_eq (n + 1) n (by omega)] at hdata
    have hrev : (Nat.digits 10 n).map Nat.digitChar = ['0'] := by
      have := congrArg List.reverse hdata
      simpa using this.symm
    have hdig : Nat.digits 10 n = [0] := by
      have h0 : ([0] : List Nat).map Nat.digitChar = ['0'] := rfl
      exact map_digitChar_inj _ _
        (fun x hx => Nat.digits_lt_base (by norm_num) hx)
        (fun x hx => by simp at hx; omega) (hrev.trans h0.symm)
    have : n = 0 := by
      have := Nat.ofDigits_digits 10 n
      rw [hdig] at this
      simpa [Nat.ofDigits] using this.symm
    exact hn this
  intro m n h
  unfold pyStr at h
  by_cases hm : m = 0 <;> by_cases hn : n = 0
  · omega
  · rw [if_pos hm, if_neg hn] at h
    exact absurd h (zero_case n hn)
  · rw [if_neg hm, if_pos hn] at h
    exact absurd h.symm (zero_case m hm)
  · rw [if_neg hm, if_neg hn] at h
    have hdata := congrArg String.data h
    exact key m hm n hn hdata

/-- Helper: prepending a fixed string is left-cancellable. -/
theorem string_append_cancel_left (s a b : String) (h : s ++ a = s ++ b) : a = b := by
  cases s with
  | mk sd =>
    cases a with
    | mk ad =>
      cases b with
      | mk bd =>
        have hd : sd ++ ad = sd ++ bd := congrArg String.data h
        exact congrArg String.mk (List.append_cancel_left hd)

/-- Helper: the synthesized branch names `"branch-0" ... "branch-(n-1)"`
are pairwise distinct. -/
theorem synth_branch_names_nodup (n : Nat) :
    ((List.range n).map (fun i => "branch-" ++ pyStr i)).Nodup := by
  refine List.Nodup.map ?_ (List.nodup_range n)
  intro a b hab
  exact pyStr_injective (string_append_cancel_left "branch-" _ _ hab)

/-- Helper: folding dict insertions over pairs with pairwise-distinct
keys appends one entry per pair. -/
theorem foldl_dict_insert_nodup (v : MorphComputer) :
    ∀ (ps : List (String × String)) (acc : List (String × MorphComputer)),
      ((acc.map Prod.fst) ++ (ps.map Prod.fst)).Nodup →
      ps.foldl (fun d p => dict_insert d p.1 v) acc =
        acc ++ ps.map (fun p => (p.1, v)) := by
  intro ps
  induction ps with
  | nil => intro acc _; simp
  | cons p ps ih =>
    intro acc hnodup
    have hparts := List.nodup_append.mp hnodup
    have hkey : p.1 ∉ acc.map Prod.fst := by
      intro hmem
      exact hparts.2.2 hmem (by simp)
    have hins : dict_insert acc p.1 v = acc ++ [(p.1, v)] := by
      rw [dict_insert, if_neg]
      intro hany
      obtain ⟨pr, hpr, heq⟩ := List.any_eq_true.mp hany
      exact hkey (List.mem_map.mpr ⟨pr, hpr, of_decide_eq_true heq⟩)
    have hnodup2 : (((acc ++ [(p.1, v)]).map Prod.fst) ++ (ps.map Prod.fst)).Nodup := by
      have harr : (((acc ++ [(p.1, v)]).map Prod.fst) ++ (ps.map Prod.fst))
          = (acc.map Prod.fst) ++ ((p :: ps).map Prod.fst) := by
        simp
      rw [harr]
      exact hnodup
    rw [List.foldl_cons, hins, ih _ hnodup2, List.append_assoc]
    rfl

/- ===================================================================
   Claim C7: create_branches
   =================================================================== -/

/-- C7 counterexample: `branch_names` of length 1 against 2
instructions does not fail: `zip` silently truncates, one branch is
created, and the call returns normally. -/
theorem create_branches_length_mismatch_no_error :
    create_branches sample_state ["i1", "i2"] (some { id := "snap" }) (some ["a"]) =
      .ok ({ sample_state with
               branch_instructions := ["i1", "i2"],
               branches := [("a", { snapshot_id := some "snap" })] },
           [("a", { snapshot_id := some "snap" })]) := by
  rfl

/-- C7 (amended): `create_branches` performs no length check: with
`branch_names` given it forks one environment per `zip(branch_names,
instructions)` pair (so `min` of the two lengths when the used names are
distinct); with `branch_names` absent it synthesizes exactly the names
`"branch-0" ... "branch-(n-1)"` and forks one environment per
instruction; it fails with the configuration error exactly when neither
a `snapshot` argument nor a base snapshot is available. -/
theorem create_branches_spec (st : BranchingAgentState) (instructions : List String) :
    (st.base_snapshot = none → ∀ bn,
      create_branches st instructions none bn =
        .error "No snapshot provided and no base_snapshot available") ∧
    (∀ (snap : Snapshot) (ns : List String),
      ((ns.zip instructions).map Prod.fst).Nodup →
      create_branches st instructions (some snap) (some ns) =
        .ok ({ st with
                 branch_instructions := instructions,
                 branches := (ns.zip instructions).map
                   (fun p => (p.1, MorphComputer.from_snapshot snap)) },
             (ns.zip instructions).map (fun p => (p.1, MorphComputer.from_snapshot snap))) ∧
      ((ns.zip instructions).map (fun p => (p.1, MorphComputer.from_snapshot snap))).length =
        min ns.length instructions.length) ∧
    (∀ snap : Snapshot,
      create_branches st instructions (some snap) none =
        .ok ({ st with
                 branch_instructions := instructions,
                 branches := (((List.range instructions.length).map
                     (fun i => "branch-" ++ pyStr i)).zip instructions).map
                   (fun p => (p.1, MorphComputer.from_snapshot snap)) },
             (((List.range instructions.length).map (fun i => "branch-" ++ pyStr i)).zip
                instructions).map (fun p => (p.1, MorphComputer.from_snapshot snap))) ∧
      ((((List.range instructions.length).map (fun i => "branch-" ++ pyStr i)).zip
          instructions).map (fun p => (p.1, MorphComputer.from_snapshot snap))).length =
        instructions.length) := by
  refine ⟨?_, ?_, ?_⟩
  · intro hbase bn
    simp [create_branches, hbase]
  · intro snap ns hnodup
    constructor
    · rw [create_branches]
      simp only []
      rw [foldl_dict_insert_nodup (MorphComputer.from_snapshot snap) (ns.zip instructions) []
        (by simpa using hnodup)]
      rfl
    · simp [List.length_zip]
  · intro snap
    have hlen : ((List.range instructions.length).map
        (fun i => "branch-" ++ pyStr i)).length = instructions.length := by simp
    have hkeys : ((((List.range instructions.length).map
        (fun i => "branch-" ++ pyStr i)).zip instructions).map Prod.fst).Nodup := by
      rw [List.map_fst_zip _ _ (le_of_eq hlen)]
      exact synth_branch_names_nodup instructions.length
    constructor
    · rw [create_branches]
      simp only []
      rw [foldl_dict_insert_nodup (MorphComputer.from_snapshot snap) _ []
        (by simpa using hkeys)]
      rfl
    · simp [List.length_zip]

/-- C7 witness: the missing-snapshot error and the synthesized-names
path on two instructions. -/
theorem create_branches_spec_witness :
    create_branches sample_state ["i1"] none none =
      .error "No snapshot provided and no base_snapshot available" ∧
    create_branches sample_state ["i1", "i2"] (some { id := "s" }) none =
      .ok ({ sample_state with
               branch_instructions := ["i1", "i2"],
               branches := [("branch-0", { snapshot_id := some "s" }),
                            ("branch-1", { snapshot_id := some "s" })] },
           [("branch-0", { snapshot_id := some "s" }),
            ("branch-1", { snapshot_id := some "s" })]) := by
  constructor
  · exact (create_branches_spec sample_state ["i1"]).1 rfl none
  · have h := ((create_branches_spec sample_state ["i1", "i2"]).2.2 { id := "s" }).1
    exact h.trans (by rfl)

/- ===================================================================
   Claim C8: run_branches restores the completion mode
   =================================================================== -/

/-- Helper: on success, `create_branches` only rewrites the
`branch_instructions` and `branches` attributes. -/
theorem create_branches_ok_state (st : BranchingAgentState) (instructions : List String)
    (snapshot : Option Snapshot) (branch_names : Option (List String))
    (p : BranchingAgentState × List (String × MorphComputer))
    (h : create_branches st instructions snapshot branch_names = .ok p) :
    p.1 = { st with branch_instructions := instructions, branches := p.2 } := by
  cases snapshot with
  | some s =>
    unfold create_branches at h
    simp only [] at h
    injection h with h
    rw [← h]
  | none =>
    cases hbs : st.base_snapshot with
    | none =>
      unfold create_branches at h
      simp only [hbs] at h
      exact Except.noConfusion h
    | some s =>
      unfold create_branches at h
      simp only [hbs] at h
      injection h with h
      rw [← h]

/-- Helper: `set_shared_context` only rewrites `shared_context`. -/
theorem set_shared_context_frame (st : BranchingAgentState) (context : Option String) :
    (set_shared_context st context).skip_verification = st.skip_verification ∧
    (set_shared_context st context).main_computer = st.main_computer ∧
    (set_shared_context st context).agent_kwargs = st.agent_kwargs ∧
    (set_shared_context st context).agent_callback = st.agent_callback ∧
    (set_shared_context st context).completion_mode = st.completion_mode := by
  cases context with
  | some c =>
    by_cases hc : c = "" <;> simp [set_shared_context, hc]
  | none =>
    by_cases hsc : st.shared_context = none ∨ st.shared_context = some "" <;>
      simp [set_shared_context, hsc]

/-- Helper: the branch-creation and agent phase never rewrites the
coordinator configuration. -/
theorem run_branches_agents_phase_frame (st : BranchingAgentState)
    (instructions : List String) (branch_names : Option (List String)) (snap : Snapshot)
    (agent_phase : Except String Unit) :
    (run_branches_agents_phase st instructions branch_names snap agent_phase).1.skip_verification
        = st.skip_verification ∧
    (run_branches_agents_phase st instructions branch_names snap agent_phase).1.main_computer
        = st.main_computer ∧
    (run_branches_agents_phase st instructions branch_names snap agent_phase).1.agent_kwargs
        = st.agent_kwargs ∧
    (run_branches_agents_phase st instructions branch_names snap agent_phase).1.agent_callback
        = st.agent_callback ∧
    (run_branches_agents_phase st instructions branch_names snap agent_phase).1.completion_mode
        = st.completion_mode := by
  rcases hcb : create_branches st instructions (some snap) branch_names with e | p
  · simp [run_branches_agents_phase, hcb]
  · have hst := create_branches_ok_state st instructions (some snap) branch_names p hcb
    rcases p with ⟨st2, branches⟩
    simp only [] at hst
    by_cases hb : branches = []
    · simp [run_branches_agents_phase, hcb, hb, hst]
    · by_cases hlen : instructions.length = branches.length
      · cases agent_phase with
        | error e => simp [run_branches_agents_phase, hcb, hb, hlen, hst]
        | ok u => simp [run_branches_agents_phase, hcb, hb, hlen, hst]
      · simp [run_branches_agents_phase, hcb, hb, hlen, hst]

/-- Helper: the whole `try` body never rewrites the coordinator
configuration other than `shared_context`, `branch_instructions`,
`branches`, `agents` and `base_snapshot`. -/
theorem run_branches_body_frame (st : BranchingAgentState) (instructions : List String)
    (context : Option String) (branch_names : Option (List String))
    (snapshot_result : Except String Snapshot) (agent_phase : Except String Unit) :
    (run_branches_body st instructions context branch_names snapshot_result
        agent_phase).1.skip_verification = st.skip_verification ∧
    (run_branches_body st instructions context branch_names snapshot_result
        agent_phase).1.main_computer = st.main_computer ∧
    (run_branches_body st instructions context branch_names snapshot_result
        agent_phase).1.agent_kwargs = st.agent_kwargs ∧
    (run_branches_body st instructions context branch_names snapshot_result
        agent_phase).1.agent_callback = st.agent_callback ∧
    (run_branches_body st instructions context branch_names snapshot_result
        agent_phase).1.completion_mode = st.completion_mode := by
  by_cases hmc : st.main_computer = none
  · simp [run_branches_body, hmc]
  · cases snapshot_result with
    | error e => simp [run_branches_body, hmc]
    | ok snap =>
      by_cases hinstr : instructions = []
      · simp [run_branches_body, hmc, hinstr]
      · have hmid := set_shared_context_frame
          { st with base_snapshot := some snap, branch_instructions := instructions } context
        have hphase := run_branches_agents_phase_frame
          (set_shared_context
            { st with base_snapshot := some snap, branch_instructions := instructions }
            context)
          instructions branch_names snap agent_phase
        simp only [run_branches_body, if_neg hmc, if_neg hinstr]
        exact ⟨hphase.1.trans hmid.1, hphase.2.1.trans hmid.2.1,
          hphase.2.2.1.trans hmid.2.2.1, hphase.2.2.2.1.trans hmid.2.2.2.1,
          hphase.2.2.2.2.trans hmid.2.2.2.2⟩

/-- C8: on every call to `run_branches` — returning normally or raising,
with or without a `wait_mode` override — the coordinator leaves
`completion_mode` at its pre-call value (the `finally` block restores
it), and no other configuration attribute of the coordinator
(`skip_verification`, `main_computer`, `agent_kwargs`,
`agent_callback`) changes. -/
theorem run_branches_restores_completion_mode (st : BranchingAgentState)
    (instructions : List String) (context : Option String)
    (branch_names : Option (List String)) (wait_mode : Option String)
    (snapshot_result : Except String Snapshot) (agent_phase : Except String Unit) :
    (run_branches st instructions context branch_names wait_mode snapshot_result
        agent_phase).1.completion_mode = st.completion_mode ∧
    (run_branches st instructions context branch_names wait_mode snapshot_result
        agent_phase).1.skip_verification = st.skip_verification ∧
    (run_branches st instructions context branch_names wait_mode snapshot_result
        agent_phase).1.main_computer = st.main_computer ∧
    (run_branches st instructions context branch_names wait_mode snapshot_result
        agent_phase).1.agent_kwargs = st.agent_kwargs ∧
    (run_branches st instructions context branch_names wait_mode snapshot_result
        agent_phase).1.agent_callback = st.agent_callback := by
  refine ⟨rfl, ?_⟩
  cases wait_mode with
  | none =>
    have h := run_branches_body_frame st instructions context branch_names snapshot_result
      agent_phase
    exact ⟨h.1, h.2.1, h.2.2.1, h.2.2.2.1⟩
  | some w =>
    by_cases hw : w = ""
    · have h := run_branches_body_frame st instructions context branch_names snapshot_result
        agent_phase
      simp only [run_branches, hw, if_pos rfl]
      simpa [hw] using ⟨h.1, h.2.1, h.2.2.1, h.2.2.2.1⟩
    · by_cases hwv : w = "all" ∨ w = "first"
      · have h := run_branches_body_frame { st with completion_mode := w } instructions
          context branch_names snapshot_result agent_phase
        simp only [run_branches, if_neg hw, if_pos hwv]
        exact ⟨h.1, h.2.1, h.2.2.1, h.2.2.2.1⟩
      · simp [run_branches, hw, hwv]
